import Mathlib

/-!
Shallow embedding of the kibo content-addressed snapshot engine.

Each definition mirrors one function of the Rust source (file and line
references in the doc comments).  Filesystem state is made explicit:

* a `Store` is the map from blob hash to the bytes of the blob file on disk;
* a `Workspace` is the set of directories plus the map from file path to the
  hash of its current content (for a symlink, the hash of its target string);
* restore operations return the list of filesystem actions they perform,
  so that frame conditions ("this branch mutates nothing") are provable.

External libraries are represented by parameters or by their documented
interface: the glob matcher is a function parameter `gm`, and the zstd codec
is a framed, losslessly invertible stream transformer (every zstd frame
begins with a fixed 4-byte magic number, and decoding a stream that does not
begin with it fails).
-/

namespace Kibo

/-- A content hash, rendered as a 64-character hex string in the source. -/
abbrev Hash := String

/-! ## Association lists (the model of `HashMap`) -/

/-- Lookup in an association list, mirroring `HashMap::get`. -/
def lookupAssoc {α : Type} : List (String × α) → String → Option α
  | [], _ => none
  | p :: t, k => if p.1 == k then some p.2 else lookupAssoc t k

/-- Insert into an association list, mirroring `HashMap::insert`: the entry
for the key is replaced if present, else appended. -/
def insertAssoc {α : Type} (l : List (String × α)) (k : String) (v : α) :
    List (String × α) :=
  match l with
  | [] => [(k, v)]
  | p :: t => if p.1 == k then (k, v) :: t else p :: insertAssoc t k v

/-- Remove a key from an association list, mirroring `HashMap::remove`. -/
def removeAssoc {α : Type} (l : List (String × α)) (k : String) :
    List (String × α) :=
  l.filter (fun p => p.1 != k)

/-! ## Paths

Repo-relative paths are forward-slash separated strings; `pathComponents`
yields their components.  String processing is written over the character
list of the string so that every definition evaluates by kernel reduction. -/

/-- Whether one string is a prefix of another (`str::starts_with`). -/
def strStartsWith (s pre : String) : Bool :=
  pre.data.isPrefixOf s.data

/-- Drop the first `n` characters of a string (all separators handled here
are single-byte, so this agrees with the byte-index slicing of the source). -/
def strDrop (s : String) (n : Nat) : String :=
  ⟨s.data.drop n⟩

/-- Whether `sub` occurs as a contiguous substring (`str::contains`). -/
def charsContain (sub : List Char) : List Char → Bool
  | [] => sub.isEmpty
  | c :: rest => sub.isPrefixOf (c :: rest) || charsContain sub rest

/-- Split a character list at `/`, dropping empty components. -/
def splitComps : List Char → List Char → List String
  | [], acc => if acc.isEmpty then [] else [⟨acc.reverse⟩]
  | c :: rest, acc =>
      if c = '/' then
        if acc.isEmpty then splitComps rest []
        else (⟨acc.reverse⟩ : String) :: splitComps rest []
      else splitComps rest (c :: acc)

/-- Components of a repo-relative path. -/
def pathComponents (p : String) : List String :=
  splitComps p.data []

/-- Interleave the components with `/` separators. -/
def joinChars : List (List Char) → List Char
  | [] => []
  | [x] => x
  | x :: rest => x ++ '/' :: joinChars rest

/-- Join components back into a path string. -/
def joinPath (cs : List String) : String :=
  ⟨joinChars (cs.map String.data)⟩

/-- Depth of a path is its number of components. -/
def pathDepth (p : String) : Nat := (pathComponents p).length

/-- All non-empty prefixes of a component list, shortest first. -/
def nonEmptyPrefixes (cs : List String) : List (List String) :=
  (List.range cs.length).map (fun i => cs.take (i + 1))

/-- The parent of a path (`Path::parent`), as a repo-relative string; the
parent of a single-component path is the empty string (the repo root). -/
def parentPath (p : String) : String :=
  joinPath (pathComponents p).dropLast

/-! ## Manifest (`manifest.rs`) -/

/-- File entry in a manifest (`manifest.rs:14-40`). -/
structure FileEntry where
  hash : Hash
  size : Nat
  mode : Nat
  is_symlink : Bool
  symlink_target : Option String
  mtime_secs : Int
  mtime_nanos : Nat
deriving DecidableEq, Repr

/-- Directory entry in a manifest (`manifest.rs:44-54`). -/
structure DirectoryEntry where
  mode : Nat
  mtime_secs : Int
  mtime_nanos : Nat
deriving DecidableEq, Repr

/-- Snapshot manifest (`manifest.rs:58-100`); the two `HashMap` fields are
association lists; `created_at`, version and side-data fields are omitted as
no claim concerns them. -/
structure Manifest where
  name : String
  tracked_directories : List String
  tracked_files : List String
  ignored_patterns : List String
  directories : List (String × DirectoryEntry)
  files : List (String × FileEntry)
  total_size : Nat
  file_count : Nat
deriving DecidableEq, Repr

/-- `Manifest::new` (`manifest.rs:104-119`). -/
def Manifest.new (name : String) : Manifest :=
  { name := name
    tracked_directories := []
    tracked_files := []
    ignored_patterns := []
    directories := []
    files := []
    total_size := 0
    file_count := 0 }

/-- `Manifest::add_file` (`manifest.rs:138-142`): unconditionally add the
entry size to `total_size` and bump `file_count`, then insert into the map
(which replaces any previous entry for the same path). -/
def Manifest.add_file (m : Manifest) (relative_path : String) (entry : FileEntry) :
    Manifest :=
  { m with
    total_size := m.total_size + entry.size
    file_count := m.file_count + 1
    files := insertAssoc m.files relative_path entry }

/-- Fold `add_file` over a sequence of operations. -/
def addFiles (m : Manifest) (ops : List (String × FileEntry)) : Manifest :=
  ops.foldl (fun acc p => acc.add_file p.1 p.2) m

/-- The manifest bookkeeping invariant claimed by the specification:
`file_count` equals the number of entries and `total_size` their summed
sizes. -/
def manifestInvariant (m : Manifest) : Prop :=
  m.file_count = m.files.length ∧
  m.total_size = (m.files.map (fun p => p.2.size)).sum

instance (m : Manifest) : Decidable (manifestInvariant m) := by
  unfold manifestInvariant; infer_instance

/-- `Manifest::should_ignore` / `Config::should_ignore` (`manifest.rs:205-232`,
`config.rs:185-209`): a path is ignored iff some pattern matches it as a glob
(`gm` is the external glob library's matcher, a parameter of the model), or
is a literal string prefix of it, or equals one of its normal components. -/
def shouldIgnore (gm : String → String → Bool) (patterns : List String)
    (relPath : String) : Bool :=
  patterns.any fun pat =>
    gm pat relPath || strStartsWith relPath pat ||
      (pathComponents relPath).any (fun c => c == pat)

/-! ## Hash cache (`file_hash.rs`) -/

/-- Hash cache entry (`file_hash.rs:22-27`). -/
structure CacheEntry where
  size : Nat
  mtime_secs : Int
  mtime_nanos : Nat
  hash : Hash
deriving DecidableEq, Repr

/-- In-memory hash cache (`file_hash.rs:17-19`). -/
structure HashCache where
  entries : List (String × CacheEntry)
deriving DecidableEq, Repr

/-- `HashCache::new` (`file_hash.rs:31-35`). -/
def HashCache.new : HashCache := ⟨[]⟩

/-- On-disk state of `.kibo/hash_cache.json` as `HashCache::load` observes it:
absent, present but not parseable as a cache document, or well-formed with
the given entries. -/
inductive CacheFile
  | absent
  | malformed
  | wellFormed (entries : List (String × CacheEntry))
deriving DecidableEq, Repr

/-- `HashCache::load` (`file_hash.rs:38-52`): an absent file yields a fresh
empty cache; a well-formed file yields its entries; a file that fails to
parse makes the function return the error — the `?` operator propagates the
`serde_json` failure (wrapped in the context message) to the caller. -/
def HashCache.load (file : CacheFile) : Except String HashCache :=
  match file with
  | .absent => .ok HashCache.new
  | .malformed => .error "Failed to parse hash cache, starting fresh"
  | .wellFormed es => .ok ⟨es⟩

/-- The hash-cache acquisition step of `create_snapshot` (`snapshot.rs:41`):
`HashCache::load(root).unwrap_or_else(|_| HashCache::new())` — any load
failure is recovered into an empty cache at this call site. -/
def createSnapshotHashCache (file : CacheFile) : HashCache :=
  match HashCache.load file with
  | .ok c => c
  | .error _ => HashCache.new

/-- Whether an `Except` result is a success. -/
def exceptIsOk {ε α : Type} : Except ε α → Bool
  | .ok _ => true
  | .error _ => false

/-! ## FsOps: atomic write (`fs_utils.rs`) -/

/-- The syscall of `atomic_write` that fails first in a failing run:
temp-file creation (`File::create`), writing (`write_all`), syncing
(`sync_all`), or the final rename. -/
inductive AWFailure
  | createTemp
  | writeData
  | syncData
  | renameStep
deriving DecidableEq, Repr

/-- A flat file namespace: path to file contents. -/
structure FsFiles where
  files : List (String × List Nat)
deriving DecidableEq, Repr

/-- Contents at a path, if a file exists there. -/
def FsFiles.get (fs : FsFiles) (p : String) : Option (List Nat) :=
  lookupAssoc fs.files p

/-- Create or overwrite the file at a path. -/
def FsFiles.set (fs : FsFiles) (p : String) (data : List Nat) : FsFiles :=
  ⟨insertAssoc fs.files p data⟩

/-- Remove the file at a path. -/
def FsFiles.remove (fs : FsFiles) (p : String) : FsFiles :=
  ⟨removeAssoc fs.files p⟩

/-- `atomic_write` (`fs_utils.rs:10-40`) under an injected failure scenario
(`none` means every syscall succeeds).  Mirroring the control flow: create
the temp file, write all bytes (a failed write leaves a temp file with
partial content, modelled as empty), sync, then rename over the target.
Only the rename failure path removes the temp file (the closure passed to
`with_context` on `fs::rename`); the create/write/sync failure paths return
the error with the temp file left as is.  Returns the resulting filesystem
and whether the call succeeded. -/
def atomic_write (fs : FsFiles) (failAt : Option AWFailure)
    (path temp : String) (data : List Nat) : FsFiles × Bool :=
  match failAt with
  | some .createTemp => (fs, false)
  | some .writeData => (fs.set temp [], false)
  | some .syncData => (fs.set temp data, false)
  | some .renameStep => ((fs.set temp data).remove temp, false)
  | none => (((fs.set temp data).remove temp).set path data, true)

/-! ## Blob store (`store.rs`) -/

/-- The 4-byte magic header `KBCP` of a compressed blob (`store.rs:10`). -/
def COMPRESSION_MAGIC : List Nat := [75, 66, 67, 80]

/-- `DEFAULT_COMPRESSION_LEVEL` (`store.rs:11`). -/
def DEFAULT_COMPRESSION_LEVEL : Nat := 3

/-- The fixed 4-byte magic number that begins every zstd frame
(`0x28 0xB5 0x2F 0xFD` on disk).  Part of the zstd interface the store
relies on: decoding a stream that does not begin with it fails. -/
def ZSTD_FRAME_MAGIC : List Nat := [40, 181, 47, 253]

/-- Interface model of the external zstd encoder: a framed stream from which
`zstdDecode` recovers the input exactly.  The compression level only affects
the encoded size, which this byte-level model does not track. -/
def zstdEncode (_level : Nat) (data : List Nat) : List Nat :=
  ZSTD_FRAME_MAGIC ++ data

/-- Interface model of the external zstd decoder: decoding succeeds exactly
on streams carrying the zstd frame magic, returning the original input. -/
def zstdDecode (stream : List Nat) : Option (List Nat) :=
  if stream.take ZSTD_FRAME_MAGIC.length == ZSTD_FRAME_MAGIC then
    some (stream.drop ZSTD_FRAME_MAGIC.length)
  else none

/-- `Config::effective_compression_level` (`config.rs:180-182`): the
configured level capped at 10. -/
def effective_compression_level (compression_level : Nat) : Nat :=
  min compression_level 10

/-- The level handed to the zstd encoder inside `Store::compress_file_to_blob`
(`store.rs:250-258`): capped at 22 (zstd's maximum), with level 0 replaced by
the default level 3. -/
def zstdEncoderLevel (compression_level : Nat) : Nat :=
  if compression_level > 22 then 22
  else if compression_level = 0 then DEFAULT_COMPRESSION_LEVEL
  else compression_level

/-- The bytes written for a blob of the given logical content:
`Store::store_file` copies the raw bytes when the store's level is 0
(`store.rs:73-79`), else `Store::compress_file_to_blob` writes the `KBCP`
magic followed by the zstd stream (`store.rs:234-265`). -/
def blobBytes (compression_level : Nat) (content : List Nat) : List Nat :=
  if compression_level > 0 then
    COMPRESSION_MAGIC ++ zstdEncode (zstdEncoderLevel compression_level) content
  else content

/-- Content-addressed store state: the map from hash to the bytes of the blob
file at `store/<hash[0..2]>/<hash[2..]>`, plus the configured compression
level (`store.rs:14-19`). -/
structure Store where
  blobs : List (String × List Nat)
  compression_level : Nat
deriving DecidableEq, Repr

/-- `Store::has_blob` (`store.rs:53-55`): existence of the blob path. -/
def Store.has_blob (st : Store) (hash : Hash) : Bool :=
  st.blobs.any (fun p => p.1 == hash)

/-- The bytes of the blob stored under a hash, if present. -/
def Store.lookupBlob (st : Store) (hash : Hash) : Option (List Nat) :=
  lookupAssoc st.blobs hash

/-- `Store::store_file` (`store.rs:59-94`): if the blob path already exists,
return `false` without touching the filesystem; otherwise write the (possibly
compressed) content to a temp file, rename it into place and return `true`.
The source file is passed by its content bytes. -/
def Store.store_file (st : Store) (content : List Nat) (hash : Hash) :
    Store × Bool :=
  if st.has_blob hash then (st, false)
  else
    ({ st with
        blobs := st.blobs ++ [(hash, blobBytes st.compression_level content)] },
     true)

/-- UTF-8 bytes of a string. -/
def strBytes (s : String) : List Nat :=
  s.toUTF8.toList.map (fun b => b.toNat)

/-- `Store::store_symlink` (`store.rs:97-113`): same early return when the
blob exists; otherwise the target string is written as the blob content via
`atomic_write`, never compressed. -/
def Store.store_symlink (st : Store) (target : String) (hash : Hash) :
    Store × Bool :=
  if st.has_blob hash then (st, false)
  else ({ st with blobs := st.blobs ++ [(hash, strBytes target)] }, true)

/-- `Store::is_blob_compressed` (`store.rs:268-282`): read the first four
bytes of the blob and compare them with the `KBCP` magic; a missing blob or a
short read yields `false`. -/
def Store.is_blob_compressed (st : Store) (hash : Hash) : Bool :=
  match st.lookupBlob hash with
  | none => false
  | some b => b.take COMPRESSION_MAGIC.length == COMPRESSION_MAGIC

/-- `Store::decompress_blob_to_file` (`store.rs:285-311`): read and check the
`KBCP` magic, then run the zstd decoder over the remainder of the stream. -/
def decompressBlobBytes (b : List Nat) : Option (List Nat) :=
  if b.take COMPRESSION_MAGIC.length == COMPRESSION_MAGIC then
    zstdDecode (b.drop COMPRESSION_MAGIC.length)
  else none

/-- `Store::copy_blob_to_file` (`store.rs:314-327`): fail if the blob is
absent; otherwise the magic sniff alone decides between decompressing and
raw copying.  Returns the bytes written to the destination file, or `none`
on failure. -/
def Store.copy_blob_to_file (st : Store) (hash : Hash) : Option (List Nat) :=
  match st.lookupBlob hash with
  | none => none
  | some b =>
      if st.is_blob_compressed hash then decompressBlobBytes b
      else some b

/-! ## Workspace and the restore engine (`load.rs`, `snapshot.rs`)

A `Workspace` is the observable repo-relative filesystem state the restore
engine reads and mutates: the set of directories present, and the
non-directory entries (regular files and symlinks) together with the hash of
their current content — for a symlink, the hash of its target string, which
is exactly what `scan_existing_files_in_manifest` computes per entry kind.
File modes and mtimes are not part of the state; setting them is recorded as
an explicit action instead. -/

structure Workspace where
  dirs : List String
  files : List (String × Hash)
deriving DecidableEq, Repr

/-- A name is hidden in the sense of `find_tracked_directory_roots`
(`load.rs:806-807`): it starts with a dot and is not the bare `.`. -/
def isHiddenName (s : String) : Bool :=
  strStartsWith s "." && s != "."

/-- Reachability of a path in the `find_tracked_directory_roots` walk
(`load.rs:801-810`): the walk prunes every entry named `.kibo` and every
hidden-named entry, so a path is visited iff none of its components is
`.kibo` or hidden. -/
def findRootsVisited (p : String) : Bool :=
  (pathComponents p).all (fun c => !(c == ".kibo") && !(isHiddenName c))

/-- `find_tracked_directory_roots` (`load.rs:788-825`): if the manifest
tracks no directory names, nothing is scanned; otherwise every visited
directory whose basename equals a tracked name is selected.  The workspace
root itself (the empty relative path) has no basename in the model and is
never selected. -/
def find_tracked_directory_roots (m : Manifest) (ws : Workspace) :
    List String :=
  if m.tracked_directories.isEmpty then []
  else
    ws.dirs.filter fun d =>
      findRootsVisited d &&
      (match (pathComponents d).getLast? with
       | some name => m.tracked_directories.any (fun t => t == name)
       | none => false)

/-- Reachability of a path in the directory-discovery walk of
`collect_files` / `collect_directories` (`snapshot.rs:162-176`): the walk
prunes every entry named `.kibo` and every entry whose repo-relative path
matches the config's ignore rules, so a path is visited iff every non-empty
prefix avoids both. -/
def collectVisited (gm : String → String → Bool) (ignore : List String)
    (p : String) : Bool :=
  (nonEmptyPrefixes (pathComponents p)).all fun q =>
    !(q.getLast? == some ".kibo") && !(shouldIgnore gm ignore (joinPath q))

/-- The directory-discovery pass of `collect_files` (`snapshot.rs:161-193`):
for each tracked directory name, every visited directory whose basename
equals the name is selected.  Expressed as one filter over the workspace
directories; the per-name loop of the source yields the same set. -/
def collect_files_dir_discovery (gm : String → String → Bool)
    (config_directories : List String) (config_ignore : List String)
    (ws : Workspace) : List String :=
  ws.dirs.filter fun d =>
    collectVisited gm config_ignore d &&
    (match (pathComponents d).getLast? with
     | some name => config_directories.any (fun t => t == name)
     | none => false)

/-! ### Stale-file cleanup (`cleanup_stale_files`, `load.rs:179-356`) -/

/-- Relative paths of the manifest's files. -/
def manifestFilesSet (m : Manifest) : List String :=
  m.files.map Prod.fst

/-- The shortest non-empty prefix of a component list ending in the given
name, mirroring the component walk of `load.rs:206-220` (push components,
stop at the first one equal to the tracked directory name). -/
def firstPrefixEndingWith (cs : List String) (td : String) :
    Option (List String) :=
  (nonEmptyPrefixes cs).find? (fun q => q.getLast? == some td)

/-- Directories scanned by stale-file cleanup (`load.rs:200-220`): the
tracked-root discovery, plus roots inferred from manifest file paths (for
each file path and tracked name, the shortest prefix ending in that name). -/
def staleDirsToScan (m : Manifest) (ws : Workspace) : List String :=
  find_tracked_directory_roots m ws ++
    (m.files.flatMap fun p =>
      m.tracked_directories.flatMap fun td =>
        match firstPrefixEndingWith (pathComponents p.1) td with
        | some q => [joinPath q]
        | none => [])

/-- Reachability of a file in the per-root walk of stale cleanup
(`load.rs:234-247`): the walk is rooted at `rootDir` and prunes every entry
named `.kibo` and every entry whose repo-relative path matches the
manifest's recorded ignore rules. -/
def staleWalkVisited (gm : String → String → Bool) (ignored : List String)
    (rootDir : String) (f : String) : Bool :=
  let rcs := pathComponents rootDir
  let fcs := pathComponents f
  rcs.isPrefixOf fcs &&
    (nonEmptyPrefixes fcs).all fun q =>
      if rcs.isPrefixOf q then
        !(q.getLast? == some ".kibo") &&
          !(shouldIgnore gm ignored (joinPath q))
      else true

/-- First pass of stale cleanup (`load.rs:224-280`): every non-directory
entry reached from an existing scan root that is absent from the manifest's
file map is deleted. -/
def stalePass1 (gm : String → String → Bool) (m : Manifest) (ws : Workspace) :
    List String :=
  (ws.files.map Prod.fst).filter fun f =>
    ((staleDirsToScan m ws).any fun r =>
        ws.dirs.any (fun d => d == r) && staleWalkVisited gm m.ignored_patterns r f) &&
    !((manifestFilesSet m).any (fun q => q == f))

/-- Whether a pattern contains the recursive glob marker `**`. -/
def containsStarStar (pattern : String) : Bool :=
  charsContain ['*', '*'] pattern.data

/-- The pattern normalisation shared by build and restore
(`snapshot.rs:234-253`, `load.rs:283-302`), expressed against repo-relative
paths: a `./`-pattern is root-anchored (the prefix is stripped and the rest
matched from the root only); a pattern containing `**` is used as is; any
other pattern is made recursive by prefixing `**/`. -/
def patternMatchesFile (gm : String → String → Bool) (pattern : String)
    (rel : String) : Bool :=
  if strStartsWith pattern "./" then gm (strDrop pattern 2) rel
  else if containsStarStar pattern then
    (if strStartsWith pattern "/" then gm (strDrop pattern 1) rel
     else gm pattern rel)
  else
    (if strStartsWith pattern "/" then gm ("**" ++ pattern) rel
     else gm ("**/" ++ pattern) rel)

/-- Second pass of stale cleanup (`load.rs:282-345`): every on-disk file
matching a tracked file pattern is deleted unless it is in the manifest,
under `.kibo`, or ignored. -/
def stalePass2 (gm : String → String → Bool) (m : Manifest)
    (wsFiles : List String) : List String :=
  wsFiles.filter fun f =>
    (m.tracked_files.any fun pat => patternMatchesFile gm pat f) &&
    !((pathComponents f).take 1 == [".kibo"]) &&
    !(shouldIgnore gm m.ignored_patterns f) &&
    !((manifestFilesSet m).any (fun q => q == f))

/-- `cleanup_stale_files` (`load.rs:179-356`): the directory-walk pass
followed by the pattern pass over the remaining files; returns the workspace
after deletion and the list of removed relative paths. -/
def cleanup_stale_files (gm : String → String → Bool) (m : Manifest)
    (ws : Workspace) : Workspace × List String :=
  let r1 := stalePass1 gm m ws
  let ws1 : Workspace :=
    { ws with files := ws.files.filter (fun p => !(r1.any (fun q => q == p.1))) }
  let r2 := stalePass2 gm m (ws1.files.map Prod.fst)
  let ws2 : Workspace :=
    { ws1 with files := ws1.files.filter (fun p => !(r2.any (fun q => q == p.1))) }
  (ws2, r1 ++ r2)

/-! ### Empty-directory cleanup (`cleanup_empty_directories`, `load.rs:359-462`) -/

/-- Directories required by the snapshot (`load.rs:373-387`): every proper
ancestor, excluding the repo root, of every manifest file path. -/
def requiredDirs (m : Manifest) : List String :=
  m.files.flatMap fun p =>
    let cs := pathComponents p.1
    (List.range (cs.length - 1)).map (fun i => joinPath (cs.take (i + 1)))

/-- Candidate directories for removal (`load.rs:389-411`): every directory
lying under some scan root (the root itself included), skipping anything
under the top-level `.kibo`. -/
def cleanupCandidateDirs (m : Manifest) (ws : Workspace) : List String :=
  let roots := find_tracked_directory_roots m ws
  ws.dirs.filter fun d =>
    (roots.any fun r => (pathComponents r).isPrefixOf (pathComponents d)) &&
    !((pathComponents d).take 1 == [".kibo"])

/-- Insert a path into a depth-descending list, after entries of the same
depth (so that the overall sort is stable, as `sort_by` is). -/
def insertByDepthDesc (x : String) : List String → List String
  | [] => [x]
  | y :: t =>
      if pathDepth y < pathDepth x then x :: y :: t
      else y :: insertByDepthDesc x t

/-- Stable sort deepest-first (`load.rs:413-417`). -/
def sortByDepthDesc (l : List String) : List String :=
  l.foldl (fun acc x => insertByDepthDesc x acc) []

/-- Whether a path is an immediate child of another (same components plus
exactly one more). -/
def isChildOf (parent child : List String) : Bool :=
  child.length == parent.length + 1 && parent.isPrefixOf child

/-- Whether `read_dir` would report a directory as empty in the given
workspace: no directory and no file is an immediate child of it. -/
def dirIsEmpty (ws : Workspace) (d : String) : Bool :=
  let cs := pathComponents d
  !(ws.dirs.any fun x => isChildOf cs (pathComponents x)) &&
  !(ws.files.any fun f => isChildOf cs (pathComponents f.1))

/-- One iteration of the removal loop of `cleanup_empty_directories`
(`load.rs:421-451`): skip the directory if it is required; otherwise, if it
still exists and `read_dir` finds it empty, remove it and record it. -/
def cleanupStep (required : List String) (acc : Workspace × List String)
    (d : String) : Workspace × List String :=
  if required.any (fun r => r == d) then acc
  else if acc.1.dirs.any (fun x => x == d) && dirIsEmpty acc.1 d then
    ({ acc.1 with dirs := acc.1.dirs.filter (fun x => x != d) }, acc.2 ++ [d])
  else acc

/-- `cleanup_empty_directories` (`load.rs:359-462`): walk the candidate
directories deepest-first; a directory that is not required and is empty in
the current state is removed (so removing a child can empty its parent
before the parent is visited).  Note the source consults only
`required_dirs`, never `manifest.directories`.  Removal failures are
warnings in the source; the model takes the successful-removal path.
Returns the workspace after removal and the removed directories. -/
def cleanup_empty_directories (m : Manifest) (ws : Workspace) :
    Workspace × List String :=
  (sortByDepthDesc (cleanupCandidateDirs m ws)).foldl
    (cleanupStep (requiredDirs m)) (ws, [])

/-! ### File and directory restoration (`load.rs:464-745`) -/

/-- A filesystem action performed by the restore engine. -/
inductive FileAction
  | ensureDir (path : String)
  | removeExisting (path : String)
  | writeSymlink (path : String) (hash : Hash)
  | copyBlob (path : String) (hash : Hash)
  | setMode (path : String) (mode : Nat)
  | setMtime (path : String) (secs : Int) (nanos : Nat)
deriving DecidableEq, Repr

/-- Restore statistics (`LoadStats`, `load.rs:772-783`). -/
structure LoadStats where
  files_loaded : Nat
  copies : Nat
  unchanged : Nat
  symlinks : Nat
  removed : Nat
  copied_files : List String
  unchanged_files : List String
  symlink_files : List String
  removed_files : List String
deriving DecidableEq, Repr

/-- `LoadStats::default`. -/
def emptyStats : LoadStats := ⟨0, 0, 0, 0, 0, [], [], [], []⟩

/-- Pointwise combination of statistics (the mutex-merged accumulator). -/
def addStats (a b : LoadStats) : LoadStats :=
  ⟨a.files_loaded + b.files_loaded, a.copies + b.copies,
   a.unchanged + b.unchanged, a.symlinks + b.symlinks, a.removed + b.removed,
   a.copied_files ++ b.copied_files, a.unchanged_files ++ b.unchanged_files,
   a.symlink_files ++ b.symlink_files, a.removed_files ++ b.removed_files⟩

/-- Apply one restore action to the workspace.  `ensureDir` adds the path
and its ancestors; `copyBlob` and `writeSymlink` leave the entry holding the
manifest hash (the store invariant that a blob's logical content hashes to
its key); `setMode` and `setMtime` do not change the modelled state, which
carries no metadata — they matter as observable actions. -/
def applyFileAction (ws : Workspace) : FileAction → Workspace
  | .ensureDir p =>
      { ws with
        dirs := (nonEmptyPrefixes (pathComponents p)).foldl
          (fun ds q =>
            if ds.any (fun x => x == joinPath q) then ds else ds ++ [joinPath q])
          ws.dirs }
  | .removeExisting p => { ws with files := removeAssoc ws.files p }
  | .writeSymlink p h => { ws with files := insertAssoc ws.files p h }
  | .copyBlob p h => { ws with files := insertAssoc ws.files p h }
  | .setMode _ _ => ws
  | .setMtime _ _ _ => ws

/-- `load_single_file` (`load.rs:552-687`): restore one manifest entry given
the hash of what is currently on disk at its path (`existing`, the lookup in
the map produced by `scan_existing_files_in_manifest`; an absent entry means
nothing is on disk there).  Returns the actions performed and the statistics
delta.

Control flow mirrored from the source: the parent directory is ensured
first; a symlink entry with no recorded target does nothing; an entry whose
existing hash equals its manifest hash counts as unchanged; otherwise the
symlink branch removes any existing entry and recreates the link, and the
regular branch copies the blob.  For a regular (non-symlink) entry the mode
and mtime are applied after the `needs_copy` conditional, hence on the
unchanged branch as well; the symlink branch never applies them. -/
def load_single_file (relative_path : String) (entry : FileEntry)
    (existing : Option Hash) (dryRun : Bool) : List FileAction × LoadStats :=
  let parents : List FileAction :=
    if dryRun then [] else [.ensureDir (parentPath relative_path)]
  if entry.is_symlink then
    match entry.symlink_target with
    | none => (parents, emptyStats)
    | some _ =>
        if existing == some entry.hash then
          (parents,
           { emptyStats with
              unchanged := 1, files_loaded := 1,
              unchanged_files := [relative_path] })
        else
          let acts : List FileAction :=
            if dryRun then []
            else
              (if existing.isSome then [FileAction.removeExisting relative_path]
               else []) ++ [FileAction.writeSymlink relative_path entry.hash]
          (parents ++ acts,
           { emptyStats with
              symlinks := 1, files_loaded := 1,
              symlink_files := [relative_path] })
  else
    let copyStep : List FileAction × LoadStats :=
      if existing == some entry.hash then
        ([],
         { emptyStats with
            unchanged := 1, files_loaded := 1,
            unchanged_files := [relative_path] })
      else
        ((if dryRun then [] else [FileAction.copyBlob relative_path entry.hash]),
         { emptyStats with
            copies := 1, files_loaded := 1,
            copied_files := [relative_path] })
    let metaActs : List FileAction :=
      if dryRun then []
      else
        [FileAction.setMode relative_path entry.mode,
         FileAction.setMtime relative_path entry.mtime_secs entry.mtime_nanos]
    (parents ++ copyStep.1 ++ metaActs, copyStep.2)

/-- `scan_existing_files_in_manifest` (`load.rs:519-549`): for each manifest
path present on disk, its current content hash (target-string hash for a
symlink). -/
def scanExistingFiles (m : Manifest) (ws : Workspace) : List (String × Hash) :=
  m.files.filterMap fun p =>
    (lookupAssoc ws.files p.1).map (fun h => (p.1, h))

/-- `load_files` (`load.rs:465-516`): scan existing files once, then restore
every manifest entry, accumulating actions and statistics. -/
def load_files (m : Manifest) (ws : Workspace) (dryRun : Bool) :
    Workspace × List FileAction × LoadStats :=
  let existingMap := scanExistingFiles m ws
  m.files.foldl
    (fun acc p =>
      let r := load_single_file p.1 p.2 (lookupAssoc existingMap p.1) dryRun
      (r.1.foldl applyFileAction acc.1, acc.2.1 ++ r.1, addStats acc.2.2 r.2))
    (ws, [], emptyStats)

/-- Insert a manifest directory entry into a depth-ascending list, after
entries of the same depth (stable, shallowest first; depth is the
slash count of the path as in `load.rs:710-714`). -/
def insertByDepthAsc (x : String × DirectoryEntry) :
    List (String × DirectoryEntry) → List (String × DirectoryEntry)
  | [] => [x]
  | y :: t =>
      if pathDepth x.1 < pathDepth y.1 then x :: y :: t
      else y :: insertByDepthAsc x t

/-- Stable sort shallowest-first. -/
def sortDirEntriesByDepth (l : List (String × DirectoryEntry)) :
    List (String × DirectoryEntry) :=
  l.foldl (fun acc x => insertByDepthAsc x acc) []

/-- `restore_directories` (`load.rs:690-745`): for every manifest directory
entry, shallowest first, create it if absent, then set its mode and mtime. -/
def restore_directories (m : Manifest) (ws : Workspace) :
    Workspace × List FileAction :=
  (sortDirEntriesByDepth m.directories).foldl
    (fun acc p =>
      let createActs : List FileAction :=
        if acc.1.dirs.any (fun x => x == p.1) then []
        else [FileAction.ensureDir p.1]
      let newActs := createActs ++
        [FileAction.setMode p.1 p.2.mode,
         FileAction.setMtime p.1 p.2.mtime_secs p.2.mtime_nanos]
      (newActs.foldl applyFileAction acc.1, acc.2 ++ newActs))
    (ws, [])

/-! ### Verify and the full restore (`load.rs:17-176`, `load.rs:748-769`) -/

/-- The error produced by `verify_snapshot`: the number of manifest files
whose blob is missing, and a sample of at most five of their paths. -/
structure VerifyError where
  missingCount : Nat
  sample : List String
deriving DecidableEq, Repr

/-- `verify_snapshot` (`load.rs:748-769`): collect every manifest path whose
blob is absent from the store; succeed iff there are none, else fail with
the count and the first five paths. -/
def verify_snapshot (m : Manifest) (st : Store) : Except VerifyError Unit :=
  let missing := (m.files.filter (fun p => !(st.has_blob p.2.hash))).map Prod.fst
  if missing.isEmpty then .ok ()
  else .error ⟨missing.length, missing.take 5⟩

/-- `load_snapshot` (`load.rs:17-176`), non-dry-run: verify first, and only
on success run the mutating phases in order — stale-file cleanup,
empty-directory cleanup, directory restoration, file restoration.  On a
verify failure the error is returned with the workspace untouched and no
action performed.  Returns the final workspace, the restore actions, and the
statistics. -/
def load_snapshot (gm : String → String → Bool) (m : Manifest) (st : Store)
    (ws : Workspace) : Except VerifyError (Workspace × List FileAction × LoadStats) :=
  match verify_snapshot m st with
  | .error e => .error e
  | .ok _ =>
      let c1 := cleanup_stale_files gm m ws
      let c2 := cleanup_empty_directories m c1.1
      let c3 := restore_directories m c2.1
      let c4 := load_files m c3.1 false
      .ok (c4.1, c3.2 ++ c4.2.1,
        addStats c4.2.2
          { emptyStats with
             removed := c1.2.length, removed_files := c1.2 })

/-! ## Helper lemmas -/

theorem lookupAssoc_insert_self {α : Type} (l : List (String × α)) (k : String)
    (v : α) : lookupAssoc (insertAssoc l k v) k = some v := by
  induction l with
  | nil => simp [insertAssoc, lookupAssoc]
  | cons p t ih =>
      by_cases h : p.1 = k
      · simp [insertAssoc, lookupAssoc, h]
      · simp [insertAssoc, lookupAssoc, h, ih]

theorem lookupAssoc_insert_ne {α : Type} (l : List (String × α)) (k k2 : String)
    (v : α) (hne : k2 ≠ k) :
    lookupAssoc (insertAssoc l k v) k2 = lookupAssoc l k2 := by
  have hkk : ¬ (k = k2) := fun he => hne he.symm
  induction l with
  | nil => simp [insertAssoc, lookupAssoc, hkk]
  | cons p t ih =>
      by_cases h : p.1 = k
      · have hpk2 : ¬ (p.1 = k2) := fun he => hkk (h ▸ he)
        simp [insertAssoc, lookupAssoc, h, hkk, hpk2]
      · simp [insertAssoc, lookupAssoc, h, ih]

theorem lookupAssoc_remove_self {α : Type} (l : List (String × α)) (k : String) :
    lookupAssoc (removeAssoc l k) k = none := by
  induction l with
  | nil => simp [removeAssoc, lookupAssoc]
  | cons p t ih =>
      by_cases h : p.1 = k
      · simpa [removeAssoc, lookupAssoc, List.filter_cons, h] using ih
      · simpa [removeAssoc, lookupAssoc, List.filter_cons, h] using ih

theorem lookupAssoc_remove_ne {α : Type} (l : List (String × α)) (k k2 : String)
    (hne : k2 ≠ k) :
    lookupAssoc (removeAssoc l k) k2 = lookupAssoc l k2 := by
  induction l with
  | nil => simp [removeAssoc, lookupAssoc]
  | cons p t ih =>
      simp only [removeAssoc] at ih ⊢
      by_cases h : p.1 = k
      · have hkk2 : ¬ (k = k2) := fun he => hne he.symm
        have hpk2 : ¬ (p.1 = k2) := by rw [h]; exact hkk2
        simp [List.filter_cons, lookupAssoc, h, hpk2, hkk2, ih]
      · simp [List.filter_cons, lookupAssoc, h, ih]

theorem insertAssoc_of_not_mem {α : Type} (l : List (String × α)) (k : String)
    (v : α) (h : k ∉ l.map Prod.fst) : insertAssoc l k v = l ++ [(k, v)] := by
  induction l with
  | nil => simp [insertAssoc]
  | cons p t ih =>
      simp only [List.map_cons, List.mem_cons, not_or] at h
      have hp : (p.1 == k) = false := by
        simp [beq_eq_false_iff_ne]
        exact fun he => h.1 he.symm
      simp [insertAssoc, hp, ih h.2]

theorem any_beq_iff_mem (l : List String) (x : String) :
    (l.any fun r => r == x) = true ↔ x ∈ l := by
  simp [List.any_eq_true]

/-! ## C1 — metadata application in `load_single_file` -/

/-- C1 counterexample: for a regular-file entry whose on-disk hash equals the
manifest hash (the branch taken is the unchanged one, witnessed by the
statistics), `load_single_file` still emits `setMode` and `setMtime`
actions, so mode and mtime are reapplied on the unchanged branch. -/
theorem load_single_file_unchanged_sets_metadata :
    (load_single_file "a.txt" ⟨"hh", 4, 420, false, none, 100, 0⟩
        (some "hh") false).2.unchanged = 1 ∧
    FileAction.setMode "a.txt" 420 ∈
      (load_single_file "a.txt" ⟨"hh", 4, 420, false, none, 100, 0⟩
        (some "hh") false).1 ∧
    FileAction.setMtime "a.txt" 100 0 ∈
      (load_single_file "a.txt" ⟨"hh", 4, 420, false, none, 100, 0⟩
        (some "hh") false).1 := by
  decide

/-- C1 (amended): in a non-dry-run restore, `load_single_file` applies the
entry's mode and mtime to every regular-file entry, on the unchanged branch
as well as the copied branch; the unchanged branch performs no blob copy;
and the symlink branches never apply mode or mtime. -/
theorem load_single_file_metadata (path : String) (entry : FileEntry)
    (existing : Option Hash) (hreg : entry.is_symlink = false) :
    (FileAction.setMode path entry.mode ∈
        (load_single_file path entry existing false).1 ∧
      FileAction.setMtime path entry.mtime_secs entry.mtime_nanos ∈
        (load_single_file path entry existing false).1) ∧
    (existing = some entry.hash →
      (load_single_file path entry existing false).2.unchanged = 1 ∧
      ∀ h : Hash,
        FileAction.copyBlob path h ∉ (load_single_file path entry existing false).1) ∧
    (∀ entry2 : FileEntry, entry2.is_symlink = true →
      (∀ mo : Nat,
        FileAction.setMode path mo ∉ (load_single_file path entry2 existing false).1) ∧
      (∀ s : Int, ∀ n : Nat,
        FileAction.setMtime path s n ∉ (load_single_file path entry2 existing false).1)) := by
  refine ⟨?_, ?_, ?_⟩
  · by_cases h : (existing == some entry.hash) = true
    · simp [load_single_file, hreg, h]
    · simp only [Bool.not_eq_true] at h
      simp [load_single_file, hreg, h]
  · intro he
    have h : (existing == some entry.hash) = true := by simp [he]
    simp [load_single_file, hreg, h]
  · intro entry2 hsym
    constructor
    · intro mo
      cases ht : entry2.symlink_target with
      | none => simp [load_single_file, hsym, ht]
      | some tgt =>
          by_cases h : (existing == some entry2.hash) = true
          · simp [load_single_file, hsym, ht, h]
          · simp only [Bool.not_eq_true] at h
            by_cases hs : existing.isSome = true
            · simp [load_single_file, hsym, ht, h, hs]
            · simp only [Bool.not_eq_true] at hs
              simp [load_single_file, hsym, ht, h, hs]
    · intro s n
      cases ht : entry2.symlink_target with
      | none => simp [load_single_file, hsym, ht]
      | some tgt =>
          by_cases h : (existing == some entry2.hash) = true
          · simp [load_single_file, hsym, ht, h]
          · simp only [Bool.not_eq_true] at h
            by_cases hs : existing.isSome = true
            · simp [load_single_file, hsym, ht, h, hs]
            · simp only [Bool.not_eq_true] at hs
              simp [load_single_file, hsym, ht, h, hs]

/-- C1 witness: the amended theorem applied at a concrete regular-file
entry. -/
theorem load_single_file_metadata_witness :
    ((⟨"hh", 4, 420, false, none, 100, 0⟩ : FileEntry).is_symlink = false) ∧
    FileAction.setMode "b.txt" 420 ∈
      (load_single_file "b.txt" ⟨"hh", 4, 420, false, none, 100, 0⟩
        (some "zz") false).1 :=
  ⟨by decide,
   (load_single_file_metadata "b.txt" ⟨"hh", 4, 420, false, none, 100, 0⟩
      (some "zz") (by decide)).1.1⟩

/-! ## C2 — corrupt hash cache handling -/

/-- C2 counterexample: `HashCache::load` on a cache file that fails to parse
does not succeed — the parse error is propagated to the caller. -/
theorem hash_cache_load_malformed_fails :
    exceptIsOk (HashCache.load CacheFile.malformed) = false := by
  decide

/-- C2 (amended): `HashCache::load` returns an error on a cache file that
fails to parse; the caller `create_snapshot` recovers that failure into an
empty cache, so snapshot creation proceeds with an empty cache.  Absent and
well-formed cache files load as empty and as their entries respectively. -/
theorem hash_cache_load_amended :
    HashCache.load CacheFile.malformed =
      Except.error "Failed to parse hash cache, starting fresh" ∧
    createSnapshotHashCache CacheFile.malformed = HashCache.new ∧
    HashCache.load CacheFile.absent = Except.ok HashCache.new ∧
    HashCache.load (CacheFile.wellFormed [("p", ⟨1, 2, 3, "h"⟩)]) =
      Except.ok ⟨[("p", ⟨1, 2, 3, "h"⟩)]⟩ := by
  refine ⟨rfl, rfl, rfl, rfl⟩

/-! ## C6 — manifest bookkeeping invariant -/

/-- C6 counterexample: adding the same relative path twice breaks both
halves of the invariant — `file_count` becomes 2 while the map holds one
entry, and `total_size` double-counts the size. -/
theorem manifest_invariant_counterexample :
    ¬ manifestInvariant
        (addFiles (Manifest.new "s")
          [("a", ⟨"h1", 1, 420, false, none, 100, 0⟩),
           ("a", ⟨"h1", 1, 420, false, none, 100, 0⟩)]) := by
  decide

theorem addFiles_invariant_aux :
    ∀ (ops : List (String × FileEntry)) (m : Manifest),
      manifestInvariant m →
      (∀ k ∈ ops.map Prod.fst, k ∉ m.files.map Prod.fst) →
      (ops.map Prod.fst).Nodup →
      manifestInvariant (addFiles m ops) := by
  intro ops
  induction ops with
  | nil => intro m hm _ _; simpa [addFiles] using hm
  | cons p t ih =>
      intro m hm hdisj hnodup
      have hp : p.1 ∉ m.files.map Prod.fst := hdisj p.1 (by simp)
      have hins : insertAssoc m.files p.1 p.2 = m.files ++ [(p.1, p.2)] :=
        insertAssoc_of_not_mem m.files p.1 p.2 hp
      have hm2 : manifestInvariant (m.add_file p.1 p.2) := by
        obtain ⟨hc, hs⟩ := hm
        constructor
        · simp [Manifest.add_file, hins, hc]
        · simp [Manifest.add_file, hins, hs]
      simp only [List.map_cons, List.nodup_cons] at hnodup
      have hdisj2 : ∀ k ∈ t.map Prod.fst,
          k ∉ (m.add_file p.1 p.2).files.map Prod.fst := by
        intro k hk
        have hk1 : k ∉ m.files.map Prod.fst := hdisj k (by simp [hk])
        have hk2 : k ≠ p.1 := fun he => hnodup.1 (he ▸ hk)
        simp [Manifest.add_file, hins, hk1, hk2]
      have : addFiles m (p :: t) = addFiles (m.add_file p.1 p.2) t := by
        simp [addFiles]
      rw [this]
      exact ih (m.add_file p.1 p.2) hm2 hdisj2 hnodup.2

/-- C6 (amended): the invariant `file_count = files.len()` and
`total_size = Σ sizes` holds for every manifest produced by a sequence of
`add_file` operations whose relative paths are pairwise distinct; a repeated
path breaks it (see the counterexample). -/
theorem manifest_add_file_invariant (name : String)
    (ops : List (String × FileEntry)) (hnodup : (ops.map Prod.fst).Nodup) :
    manifestInvariant (addFiles (Manifest.new name) ops) := by
  apply addFiles_invariant_aux ops (Manifest.new name)
  · constructor <;> simp [Manifest.new]
  · intro k _ hk
    simp [Manifest.new] at hk
  · exact hnodup

/-- C6 witness: the amended theorem applied to two distinct paths. -/
theorem manifest_add_file_invariant_witness :
    ((([("a", (⟨"h1", 1, 420, false, none, 100, 0⟩ : FileEntry)),
        ("b", (⟨"h2", 2, 420, false, none, 100, 0⟩ : FileEntry))]).map
          Prod.fst).Nodup) ∧
    manifestInvariant
      (addFiles (Manifest.new "s")
        [("a", ⟨"h1", 1, 420, false, none, 100, 0⟩),
         ("b", ⟨"h2", 2, 420, false, none, 100, 0⟩)]) :=
  ⟨by decide,
   manifest_add_file_invariant "s"
     [("a", ⟨"h1", 1, 420, false, none, 100, 0⟩),
      ("b", ⟨"h2", 2, 420, false, none, 100, 0⟩)] (by decide)⟩

/-! ## C9 — compression level semantics -/

/-- C9: the configured compression level is capped to 10 before the store is
constructed; level 0 writes raw bytes; levels 1..=10 are handed to zstd
unchanged; the level the encoder is asked to use never exceeds zstd's
maximum 22; and an internal compress call at level 0 substitutes the default
level 3. -/
theorem compression_level_semantics :
    ∀ c : Nat,
      effective_compression_level c ≤ 10 ∧
      (c ≤ 10 → effective_compression_level c = c) ∧
      (10 ≤ c → effective_compression_level c = 10) ∧
      (∀ content : List Nat, blobBytes 0 content = content) ∧
      (∀ l : Nat, 1 ≤ l → l ≤ 10 → zstdEncoderLevel l = l) ∧
      (∀ l : Nat, zstdEncoderLevel l ≤ 22) ∧
      zstdEncoderLevel 0 = DEFAULT_COMPRESSION_LEVEL ∧
      (∀ content : List Nat, ∀ l : Nat, 0 < l →
        blobBytes l content =
          COMPRESSION_MAGIC ++ zstdEncode (zstdEncoderLevel l) content) := by
  intro c
  refine ⟨?_, ?_, ?_, ?_, ?_, ?_, ?_, ?_⟩
  · exact Nat.min_le_right c 10
  · intro h; exact Nat.min_eq_left h
  · intro h; exact Nat.min_eq_right h
  · intro content; simp [blobBytes]
  · intro l h1 h2
    unfold zstdEncoderLevel
    rw [if_neg (by omega), if_neg (by omega)]
  · intro l
    unfold zstdEncoderLevel
    split
    · omega
    · split
      · simp [DEFAULT_COMPRESSION_LEVEL]
      · omega
  · rfl
  · intro content l hl
    simp [blobBytes, hl]

/-- C9 witness: the semantics theorem applied at concrete levels, with the
implications discharged. -/
theorem compression_level_semantics_witness :
    (15 : Nat) ≥ 10 ∧ effective_compression_level 15 = 10 ∧
    zstdEncoderLevel 0 = DEFAULT_COMPRESSION_LEVEL :=
  ⟨by decide, (compression_level_semantics 15).2.2.1 (by decide),
   (compression_level_semantics 0).2.2.2.2.2.2.1⟩

/-! ## C10 — atomic write -/

/-- C10 counterexample: when the write to the temp file fails, the call
fails but the temp file is left behind — it is not removed before the error
returns. -/
theorem atomic_write_temp_left_behind :
    (atomic_write ⟨[]⟩ (some AWFailure.writeData) "p" "t" [1]).2 = false ∧
    (atomic_write ⟨[]⟩ (some AWFailure.writeData) "p" "t" [1]).1.get "t" =
      some [] := by
  decide

/-- C10 (amended): `atomic_write` either succeeds entirely (the target holds
exactly the given bytes and the temp file is gone) or fails leaving the
target in its pre-call state; the temp file is best-effort removed on a
rename failure only — a failed temp creation, write, or sync returns the
error without removing the temp file. -/
theorem atomic_write_spec (fs : FsFiles) (failAt : Option AWFailure)
    (path temp : String) (data : List Nat) (hne : temp ≠ path) :
    (failAt = none →
      (atomic_write fs failAt path temp data).2 = true ∧
      (atomic_write fs failAt path temp data).1.get path = some data ∧
      (atomic_write fs failAt path temp data).1.get temp = none) ∧
    (failAt ≠ none →
      (atomic_write fs failAt path temp data).2 = false ∧
      (atomic_write fs failAt path temp data).1.get path = fs.get path) ∧
    (failAt = some AWFailure.renameStep →
      (atomic_write fs failAt path temp data).1.get temp = none) := by
  have hpt : path ≠ temp := fun he => hne he.symm
  refine ⟨?_, ?_, ?_⟩
  · intro h
    subst h
    refine ⟨rfl, ?_, ?_⟩
    · simp [atomic_write, FsFiles.get, FsFiles.set, lookupAssoc_insert_self]
    · simp only [atomic_write, FsFiles.get, FsFiles.set, FsFiles.remove]
      rw [lookupAssoc_insert_ne _ _ _ _ hne, lookupAssoc_remove_self]
  · intro h
    cases failAt with
    | none => exact absurd rfl h
    | some f =>
        cases f with
        | createTemp => exact ⟨rfl, rfl⟩
        | writeData =>
            refine ⟨rfl, ?_⟩
            simp only [atomic_write, FsFiles.get, FsFiles.set]
            rw [lookupAssoc_insert_ne _ _ _ _ hpt]
        | syncData =>
            refine ⟨rfl, ?_⟩
            simp only [atomic_write, FsFiles.get, FsFiles.set]
            rw [lookupAssoc_insert_ne _ _ _ _ hpt]
        | renameStep =>
            refine ⟨rfl, ?_⟩
            simp only [atomic_write, FsFiles.get, FsFiles.set, FsFiles.remove]
            rw [lookupAssoc_remove_ne _ _ _ hpt, lookupAssoc_insert_ne _ _ _ _ hpt]
  · intro h
    subst h
    simp only [atomic_write, FsFiles.get, FsFiles.set, FsFiles.remove]
    rw [lookupAssoc_remove_self]

/-- C10 witness: the amended theorem applied to a concrete successful run
and a concrete rename failure. -/
theorem atomic_write_spec_witness :
    ("t" : String) ≠ "p" ∧
    (atomic_write ⟨[]⟩ none "p" "t" [7]).1.get "p" = some [7] ∧
    (atomic_write ⟨[]⟩ (some AWFailure.renameStep) "p" "t" [7]).1.get "t" =
      none :=
  ⟨by decide,
   ((atomic_write_spec ⟨[]⟩ none "p" "t" [7] (by decide)).1 rfl).2.1,
   (atomic_write_spec ⟨[]⟩ (some AWFailure.renameStep) "p" "t" [7]
      (by decide)).2.2 rfl⟩

/-! ## C7 — blob-store insertion is idempotent -/

theorem store_file_of_has_blob (st : Store) (content : List Nat) (h : Hash)
    (hb : st.has_blob h = true) : st.store_file content h = (st, false) := by
  simp [Store.store_file, hb]

theorem store_symlink_of_has_blob (st : Store) (target : String) (h : Hash)
    (hb : st.has_blob h = true) : st.store_symlink target h = (st, false) := by
  simp [Store.store_symlink, hb]

theorem has_blob_after_store_file (st : Store) (content : List Nat) (h : Hash)
    (hfresh : st.has_blob h = false) :
    (st.store_file content h).1.has_blob h = true := by
  simp only [Store.store_file, hfresh, Bool.false_eq_true, if_false]
  simp [Store.has_blob, List.any_append]

theorem has_blob_after_store_symlink (st : Store) (target : String) (h : Hash)
    (hfresh : st.has_blob h = false) :
    (st.store_symlink target h).1.has_blob h = true := by
  simp only [Store.store_symlink, hfresh, Bool.false_eq_true, if_false]
  simp [Store.has_blob, List.any_append]

/-- C7: blob-store insertion is idempotent.  Starting from a store without
the hash, `store_file` returns `true` (newly stored); calling it again
returns `false` and leaves the store state — hence the blob's on-disk bytes —
completely unchanged.  The same holds for `store_symlink`. -/
theorem store_insertion_idempotent (st : Store) (content : List Nat)
    (target : String) (hash : Hash) (hfresh : st.has_blob hash = false) :
    (st.store_file content hash).2 = true ∧
    (st.store_file content hash).1.store_file content hash =
      ((st.store_file content hash).1, false) ∧
    (st.store_symlink target hash).2 = true ∧
    (st.store_symlink target hash).1.store_symlink target hash =
      ((st.store_symlink target hash).1, false) := by
  refine ⟨?_, ?_, ?_, ?_⟩
  · simp [Store.store_file, hfresh]
  · exact store_file_of_has_blob _ content hash
      (has_blob_after_store_file st content hash hfresh)
  · simp [Store.store_symlink, hfresh]
  · exact store_symlink_of_has_blob _ target hash
      (has_blob_after_store_symlink st target hash hfresh)

/-- C7 witness: the idempotence theorem at a concrete fresh store. -/
theorem store_insertion_idempotent_witness :
    (Store.has_blob ⟨[], 0⟩ "ab" = false) ∧
    (Store.store_file ⟨[], 0⟩ [1, 2] "ab").2 = true :=
  ⟨by decide,
   (store_insertion_idempotent ⟨[], 0⟩ [1, 2] "t" "ab" (by decide)).1⟩

/-! ## C8 — compression round-trip -/

theorem lookupAssoc_append_fresh {α : Type} (l : List (String × α)) (k : String)
    (v : α) (h : (l.any fun p => p.1 == k) = false) :
    lookupAssoc (l ++ [(k, v)]) k = some v := by
  induction l with
  | nil => simp [lookupAssoc]
  | cons p t ih =>
      simp only [List.any_cons, Bool.or_eq_false_iff] at h
      simp [lookupAssoc, h.1, ih h.2]

/-- C8 counterexample: at compression level 0 a file whose content begins
with the `KBCP` magic is stored raw, but the magic-byte sniff routes its
blob to decompression, which fails — the round-trip does not return the
original bytes. -/
theorem compression_roundtrip_counterexample :
    (Store.store_file ⟨[], 0⟩ (COMPRESSION_MAGIC ++ [0, 0, 0, 0])
        "ab").1.copy_blob_to_file "ab" = none ∧
    (Store.store_file ⟨[], 0⟩ (COMPRESSION_MAGIC ++ [0, 0, 0, 0])
        "ab").1.copy_blob_to_file "ab" ≠
      some (COMPRESSION_MAGIC ++ [0, 0, 0, 0]) := by
  decide

/-- C8 (amended): storing a file and materialising its blob returns the
original bytes for every compression level in 0..=10, provided that at
level 0 the file content does not itself begin with the `KBCP` magic (a
compressed blob always carries the magic, so levels 1..=10 need no
proviso); the magic-byte sniff alone decides whether to decompress. -/
theorem compression_roundtrip (st : Store) (content : List Nat) (hash : Hash)
    (hfresh : st.has_blob hash = false)
    (_hlevel : st.compression_level ≤ 10)
    (hraw : st.compression_level = 0 →
      (content.take COMPRESSION_MAGIC.length == COMPRESSION_MAGIC) = false) :
    (st.store_file content hash).1.copy_blob_to_file hash = some content := by
  have hany : (st.blobs.any fun p => p.1 == hash) = false := hfresh
  have hlook : (st.store_file content hash).1.lookupBlob hash =
      some (blobBytes st.compression_level content) := by
    simp only [Store.store_file, hfresh, Bool.false_eq_true, if_false]
    exact lookupAssoc_append_fresh st.blobs hash _ hany
  have hcomp : (st.store_file content hash).1.is_blob_compressed hash =
      ((blobBytes st.compression_level content).take COMPRESSION_MAGIC.length ==
        COMPRESSION_MAGIC) := by
    simp [Store.is_blob_compressed, hlook]
  simp only [Store.copy_blob_to_file, hlook, hcomp]
  cases hcl : st.compression_level with
  | zero =>
      have hb0 : blobBytes 0 content = content := by simp [blobBytes]
      rw [hb0, hraw hcl]
      simp
  | succ n =>
      have hb : blobBytes (n + 1) content =
          COMPRESSION_MAGIC ++ (ZSTD_FRAME_MAGIC ++ content) := by
        simp [blobBytes, zstdEncode]
      rw [hb]
      have htake : (COMPRESSION_MAGIC ++
          (ZSTD_FRAME_MAGIC ++ content)).take COMPRESSION_MAGIC.length =
          COMPRESSION_MAGIC := List.take_left _ _
      have hdrop : (COMPRESSION_MAGIC ++
          (ZSTD_FRAME_MAGIC ++ content)).drop COMPRESSION_MAGIC.length =
          ZSTD_FRAME_MAGIC ++ content := List.drop_left _ _
      have htake2 : (ZSTD_FRAME_MAGIC ++ content).take ZSTD_FRAME_MAGIC.length =
          ZSTD_FRAME_MAGIC := List.take_left _ _
      have hdrop2 : (ZSTD_FRAME_MAGIC ++ content).drop ZSTD_FRAME_MAGIC.length =
          content := List.drop_left _ _
      simp [decompressBlobBytes, zstdDecode, htake, hdrop, htake2, hdrop2]

/-- C8 witness: the round-trip theorem at level 5 on content that itself
begins with the magic, and at level 0 on ordinary content. -/
theorem compression_roundtrip_witness :
    (Store.has_blob ⟨[], 5⟩ "ab" = false) ∧
    (Store.store_file ⟨[], 5⟩ (COMPRESSION_MAGIC ++ [0, 0, 0, 0])
        "ab").1.copy_blob_to_file "ab" =
      some (COMPRESSION_MAGIC ++ [0, 0, 0, 0]) ∧
    (Store.store_file ⟨[], 0⟩ [1, 2, 3] "cd").1.copy_blob_to_file "cd" =
      some [1, 2, 3] :=
  ⟨by decide,
   compression_roundtrip ⟨[], 5⟩ (COMPRESSION_MAGIC ++ [0, 0, 0, 0]) "ab"
     (by decide) (by decide) (by decide),
   compression_roundtrip ⟨[], 0⟩ [1, 2, 3] "cd"
     (by decide) (by decide) (by decide)⟩

/-! ## C3 — empty-directory cleanup versus manifest directories -/

/-- C3 counterexample: an empty directory that is recorded in
`manifest.directories` (but is an ancestor of no manifest file) is removed
by `cleanup_empty_directories` — the function never consults
`manifest.directories`. -/
theorem cleanup_removes_manifest_directory :
    (cleanup_empty_directories
        { Manifest.new "snap" with
            tracked_directories := ["src"],
            directories := [("src", ⟨493, 100, 0⟩)] }
        ⟨["src"], []⟩).2 = ["src"] ∧
    "src" ∈
      ({ Manifest.new "snap" with
          tracked_directories := ["src"],
          directories := [("src", ⟨493, 100, 0⟩)] } : Manifest).directories.map
        Prod.fst := by
  decide

theorem cleanupStep_fold_not_required (required : List String) :
    ∀ (cands : List String) (acc : Workspace × List String) (x : String),
      (∀ y ∈ acc.2, y ∉ required) →
      x ∈ (cands.foldl (cleanupStep required) acc).2 → x ∉ required := by
  intro cands
  induction cands with
  | nil => intro acc x hacc hx; exact hacc x hx
  | cons d t ih =>
      intro acc x hacc hx
      refine ih (cleanupStep required acc d) x ?_ hx
      intro y hy
      unfold cleanupStep at hy
      by_cases h1 : (required.any fun r => r == d) = true
      · rw [if_pos h1] at hy
        exact hacc y hy
      · rw [if_neg h1] at hy
        by_cases h2 :
            ((acc.1.dirs.any fun x => x == d) && dirIsEmpty acc.1 d) = true
        · rw [if_pos h2] at hy
          simp only [List.mem_append, List.mem_singleton] at hy
          cases hy with
          | inl hy2 => exact hacc y hy2
          | inr hy2 =>
              subst hy2
              intro hmem
              exact h1 ((any_beq_iff_mem required y).mpr hmem)
        · rw [if_neg h2] at hy
          exact hacc y hy

/-- C3 (amended): every directory removed by `cleanup_empty_directories`
lies outside the required set (the ancestors of manifest files); membership
in `manifest.directories` gives no protection (see the counterexample) —
such directories are recreated afterwards by `restore_directories`. -/
theorem cleanup_empty_directories_not_required (m : Manifest) (ws : Workspace)
    (d : String) (hd : d ∈ (cleanup_empty_directories m ws).2) :
    d ∉ requiredDirs m := by
  unfold cleanup_empty_directories at hd
  exact cleanupStep_fold_not_required (requiredDirs m)
    (sortByDepthDesc (cleanupCandidateDirs m ws)) (ws, []) d
    (by intro y hy; cases hy) hd

/-- C3 witness: the amended theorem at the concrete removal input. -/
theorem cleanup_empty_directories_not_required_witness :
    "src" ∈
      (cleanup_empty_directories
        { Manifest.new "snap" with
            tracked_directories := ["src"],
            directories := [("src", ⟨493, 100, 0⟩)] }
        ⟨["src"], []⟩).2 ∧
    "src" ∉ requiredDirs
      { Manifest.new "snap" with
          tracked_directories := ["src"],
          directories := [("src", ⟨493, 100, 0⟩)] } :=
  ⟨by decide,
   cleanup_empty_directories_not_required
     { Manifest.new "snap" with
         tracked_directories := ["src"],
         directories := [("src", ⟨493, 100, 0⟩)] }
     ⟨["src"], []⟩ "src" (by decide)⟩

/-! ## C4 — directory discovery at build versus restore -/

/-- C4 counterexample: a tracked directory whose name begins with a dot is
selected by the build-time discovery but skipped by the restore-time
discovery, which prunes every hidden-named entry. -/
theorem discovery_divergence :
    ".moc" ∈ collect_files_dir_discovery (fun _ _ => false) [".moc"] []
        ⟨[".moc"], []⟩ ∧
    ".moc" ∉ find_tracked_directory_roots
        { Manifest.new "snap" with tracked_directories := [".moc"] }
        ⟨[".moc"], []⟩ := by
  decide

/-- C4 (amended): build-time directory discovery and restore-time root
discovery agree exactly on directories none of whose path components is
hidden (begins with a dot) and none of whose prefixes matches an ignore
rule; outside that common domain they diverge — the restore side prunes
every hidden-named component and applies no ignore rules (see the
counterexample). -/
theorem discovery_agreement (gm : String → String → Bool)
    (tracked ignore : List String) (ws : Workspace) (d : String)
    (hhid : ∀ c ∈ pathComponents d, isHiddenName c = false)
    (hign : ∀ q ∈ nonEmptyPrefixes (pathComponents d),
      shouldIgnore gm ignore (joinPath q) = false) :
    (d ∈ collect_files_dir_discovery gm tracked ignore ws ↔
     d ∈ find_tracked_directory_roots
        { Manifest.new "r" with tracked_directories := tracked } ws) := by
  have hkibo : ∀ c ∈ pathComponents d, c ≠ ".kibo" := by
    intro c hc he
    have h1 := hhid c hc
    rw [he] at h1
    have h2 : isHiddenName ".kibo" = true := by decide
    rw [h1] at h2
    cases h2
  have hfv : findRootsVisited d = true := by
    simp only [findRootsVisited, List.all_eq_true]
    intro c hc
    simp [hhid c hc, hkibo c hc]
  have hcv : collectVisited gm ignore d = true := by
    simp only [collectVisited, List.all_eq_true]
    intro q hq
    have hig := hign q hq
    have hlast : ∀ x, q.getLast? = some x → x ≠ ".kibo" := by
      intro x hx
      have hxq : x ∈ q := List.mem_of_getLast?_eq_some hx
      have hsub : q ⊆ pathComponents d := by
        simp only [nonEmptyPrefixes, List.mem_map, List.mem_range] at hq
        obtain ⟨i, _, rfl⟩ := hq
        exact List.take_subset _ _
      exact hkibo x (hsub hxq)
    cases hq2 : q.getLast? with
    | none => simp [hig]
    | some x => simp [hig, hlast x hq2]
  by_cases htr : tracked.isEmpty = true
  · have ht : tracked = [] := by
      cases tracked with
      | nil => rfl
      | cons a t => simp [List.isEmpty] at htr
    subst ht
    simp only [collect_files_dir_discovery, find_tracked_directory_roots,
      Manifest.new]
    constructor
    · intro hmem
      rw [List.mem_filter] at hmem
      cases hgl : (pathComponents d).getLast? with
      | none => rw [hgl] at hmem; simp at hmem
      | some x => rw [hgl] at hmem; simp at hmem
    · intro hmem
      simp at hmem
  · simp only [collect_files_dir_discovery, find_tracked_directory_roots,
      Manifest.new, if_neg htr, List.mem_filter]
    constructor
    · rintro ⟨hws, hcond⟩
      refine ⟨hws, ?_⟩
      rw [Bool.and_eq_true] at hcond
      rw [hfv]
      simpa using hcond.2
    · rintro ⟨hws, hcond⟩
      refine ⟨hws, ?_⟩
      rw [Bool.and_eq_true] at hcond
      rw [hcv]
      simpa using hcond.2

/-- C4 witness: the agreement theorem at a concrete non-hidden directory. -/
theorem discovery_agreement_witness :
    (∀ c ∈ pathComponents "src", isHiddenName c = false) ∧
    ("src" ∈ collect_files_dir_discovery (fun _ _ => false) ["src"] []
        ⟨["src"], []⟩ ↔
      "src" ∈ find_tracked_directory_roots
        { Manifest.new "r" with tracked_directories := ["src"] }
        ⟨["src"], []⟩) :=
  ⟨by decide,
   discovery_agreement (fun _ _ => false) ["src"] [] ⟨["src"], []⟩ "src"
     (by decide) (by decide)⟩

/-! ## C5 — verify before any workspace mutation -/

/-- C5: if any manifest entry's blob is missing from the store, the whole
restore fails with the verify error — the result carries no mutated
workspace, no action and no statistics, and the error holds the full count
of missing paths together with a sample capped at five entries. -/
theorem verify_refuses_restore (gm : String → String → Bool) (m : Manifest)
    (st : Store) (ws : Workspace)
    (h : ∃ p ∈ m.files, st.has_blob p.2.hash = false) :
    load_snapshot gm m st ws =
      Except.error
        ⟨((m.files.filter fun p => !(st.has_blob p.2.hash)).map Prod.fst).length,
         ((m.files.filter fun p => !(st.has_blob p.2.hash)).map Prod.fst).take 5⟩ ∧
    (((m.files.filter fun p => !(st.has_blob p.2.hash)).map Prod.fst).take
        5).length ≤ 5 := by
  obtain ⟨p, hp, hb⟩ := h
  have hpf : p ∈ m.files.filter fun q => !(st.has_blob q.2.hash) := by
    rw [List.mem_filter]
    exact ⟨hp, by rw [hb]; rfl⟩
  have hne :
      ((m.files.filter fun q => !(st.has_blob q.2.hash)).map Prod.fst) ≠ [] :=
    List.ne_nil_of_mem (List.mem_map_of_mem Prod.fst hpf)
  have hempty :
      ((m.files.filter fun q => !(st.has_blob q.2.hash)).map Prod.fst).isEmpty =
        false := by
    cases hc : (m.files.filter fun q => !(st.has_blob q.2.hash)).map Prod.fst with
    | nil => exact absurd hc hne
    | cons a t => rfl
  constructor
  · simp only [load_snapshot, verify_snapshot, hempty, Bool.false_eq_true,
      if_false]
  · rw [List.length_take]
    exact Nat.min_le_left _ _

/-- C5 witness: the refusal theorem at a concrete manifest referencing a
blob absent from an empty store. -/
theorem verify_refuses_restore_witness :
    (∃ p ∈ ({ Manifest.new "snap" with
        files := [("a.txt", ⟨"hh", 4, 420, false, none, 100, 0⟩)] } :
          Manifest).files,
      Store.has_blob ⟨[], 0⟩ p.2.hash = false) ∧
    ((((({ Manifest.new "snap" with
        files := [("a.txt", ⟨"hh", 4, 420, false, none, 100, 0⟩)] } :
          Manifest).files.filter fun p =>
            !(Store.has_blob ⟨[], 0⟩ p.2.hash)).map Prod.fst).take 5).length ≤
      5) :=
  ⟨by decide,
   (verify_refuses_restore (fun _ _ => false)
      { Manifest.new "snap" with
          files := [("a.txt", ⟨"hh", 4, 420, false, none, 100, 0⟩)] }
      ⟨[], 0⟩ ⟨[], []⟩ (by decide)).2⟩

end Kibo
